import Mathlib

/-!
Shallow embedding of the metadata core of the `image-checker` repository
(`src/lib/metadata.js`, the JPEG export route and the extended metadata
module). Buffers are `List ℕ` of byte values; reading past the end of a
`Uint8Array` yields JavaScript `undefined`, which behaves as the character
`'\0'` under `String.fromCharCode` and as `0` under bitwise arithmetic, so
out-of-range reads are modelled as `0` (with an explicit bounds test where
the source compares a raw read against `0`). JavaScript numbers are modelled
as `ℚ`; the 32-bit reads keep JavaScript's signed `<< 24` semantics via
`toInt32`.

The Batteries rational arithmetic operations are `@[irreducible]`, which
blocks the evaluation of concrete instances inside `decide`; reducibility
is restored locally (the kernel is unaffected either way).
-/

attribute [local semireducible] Rat.mul Rat.add Rat.sub Rat.inv Rat.ofScientific

/-- `bytes[i]` for a natural index, `0` past the end (the value JS
`undefined` takes under the bitwise arithmetic and `String.fromCharCode`
applications the source feeds it to). -/
def byteAtN (bs : List ℕ) (i : ℕ) : ℕ := bs.getD i 0

/-- `bytes[i]` for a possibly negative index. -/
def byteAt (bs : List ℕ) (i : ℤ) : ℕ := if 0 ≤ i then byteAtN bs i.toNat else 0

/-- Whether `bytes[i]` is an in-range access (JS would yield a defined value). -/
def inBounds (bs : List ℕ) (i : ℤ) : Prop := 0 ≤ i ∧ i < bs.length

instance (bs : List ℕ) (i : ℤ) : Decidable (inBounds bs i) := by
  unfold inBounds; infer_instance

/-- JavaScript 32-bit signed wrap-around: the value of a bitwise expression
whose mathematical value is `n`. -/
def toInt32 (n : ℕ) : ℤ := ((n : ℤ) + 2 ^ 31) % 2 ^ 32 - 2 ^ 31

/-- `readUint16` from `src/lib/metadata.js` (big-endian unless `le`). -/
def readUint16 (bs : List ℕ) (off : ℤ) (le : Bool) : ℕ :=
  if le then byteAt bs off + byteAt bs (off + 1) * 256
  else byteAt bs off * 256 + byteAt bs (off + 1)

/-- `readUint32` from `src/lib/metadata.js`. JS `(b << 24) | …` operates on
signed 32-bit integers, so a top bit set makes the result negative. -/
def readUint32 (bs : List ℕ) (off : ℤ) (le : Bool) : ℤ :=
  toInt32 (if le then
    byteAt bs off + byteAt bs (off + 1) * 256 + byteAt bs (off + 2) * 65536 +
      byteAt bs (off + 3) * 16777216
  else
    byteAt bs off * 16777216 + byteAt bs (off + 1) * 65536 + byteAt bs (off + 2) * 256 +
      byteAt bs (off + 3))

/-- JS `Math.round`: round half toward positive infinity. -/
def jround (x : ℚ) : ℤ := ⌊x + 1 / 2⌋

/-- `round2` from `src/lib/metadata.js`: `Math.round(n * 100) / 100`. -/
def round2 (x : ℚ) : ℚ := (jround (x * 100) : ℚ) / 100

/-- `round6` from the extended metadata module: `Math.round(n * 1e6) / 1e6`. -/
def round6 (x : ℚ) : ℚ := (jround (x * 1000000) : ℚ) / 1000000

/-- Big-endian 4-byte encoding of a natural number (used to build test
buffers, e.g. PNG chunk length fields). -/
def u32be (n : ℕ) : List ℕ := [n / 16777216 % 256, n / 65536 % 256, n / 256 % 256, n % 256]

/-- Image container formats distinguished by `detectFormat`. -/
inductive Format where
  | PNG | JPEG | WEBP | GIF | Unknown
deriving DecidableEq, Repr

/-- `detectFormat` from `src/lib/metadata.js` / the extended module: magic
signature sniffing. -/
def detectFormat (bytes : List ℕ) : Format :=
  if 8 ≤ bytes.length ∧ byteAtN bytes 0 = 137 ∧ byteAtN bytes 1 = 80 ∧
      byteAtN bytes 2 = 78 ∧ byteAtN bytes 3 = 71 then .PNG
  else if 3 ≤ bytes.length ∧ byteAtN bytes 0 = 255 ∧ byteAtN bytes 1 = 216 ∧
      byteAtN bytes 2 = 255 then .JPEG
  else if 12 ≤ bytes.length ∧ byteAtN bytes 8 = 87 ∧ byteAtN bytes 9 = 69 ∧
      byteAtN bytes 10 = 66 ∧ byteAtN bytes 11 = 80 then .WEBP
  else if 6 ≤ bytes.length ∧ byteAtN bytes 0 = 71 ∧ byteAtN bytes 1 = 73 ∧
      byteAtN bytes 2 = 70 ∧ byteAtN bytes 3 = 56 ∧
      (byteAtN bytes 4 = 57 ∨ byteAtN bytes 4 = 55) ∧ byteAtN bytes 5 = 97 then .GIF
  else .Unknown

/-- The character codes of the PNG chunk type `pHYs`. -/
def physTag : List ℕ := [112, 72, 89, 115]

/-- The chunk loop of `parsePngPhys`: at each offset read a 4-byte big-endian
length, a 4-byte type, and either handle a `pHYs` chunk or skip
`data + crc`. The `fuel` argument only bounds the number of iterations of
the JS `while` loop (which advances by `12 + length` bytes each time). -/
def pngWalk (bytes : List ℕ) : ℕ → ℤ → Option (ℚ × ℚ)
  | 0, _ => none
  | fuel + 1, off =>
    if off + 8 ≤ (bytes.length : ℤ) then
      let len := readUint32 bytes off false
      let ds := off + 8
      if [byteAt bytes (off + 4), byteAt bytes (off + 5), byteAt bytes (off + 6),
          byteAt bytes (off + 7)] = physTag then
        if 9 ≤ len then
          let px := readUint32 bytes ds false
          let py := readUint32 bytes (ds + 4) false
          if byteAt bytes (ds + 8) = 1 then
            some (round2 ((px : ℚ) * (254 / 10000)), round2 ((py : ℚ) * (254 / 10000)))
          else none
        else none
      else pngWalk bytes fuel (ds + len + 4)
    else none

/-- `parsePngPhys` from `src/lib/metadata.js`: walk chunks from offset 8. -/
def parsePngPhys (bytes : List ℕ) : Option (ℚ × ℚ) :=
  pngWalk bytes (bytes.length + 1) 8

/-- A PNG chunk for building buffers: type, data, and (unverified) CRC. -/
structure PngChunk where
  ctype : List ℕ
  data : List ℕ
  crc : List ℕ

/-- Structural well-formedness of a built chunk: the fixed-size fields have
their sizes and all stored values are genuine bytes with the length fitting
in a signed 32-bit integer. -/
def wfChunk (c : PngChunk) : Prop :=
  c.ctype.length = 4 ∧ c.crc.length = 4 ∧ c.data.length < 2 ^ 31 ∧
    (∀ b ∈ c.data, b < 256) ∧ (∀ b ∈ c.ctype, b < 256) ∧ (∀ b ∈ c.crc, b < 256)

instance (c : PngChunk) : Decidable (wfChunk c) := by
  unfold wfChunk; infer_instance

/-- Serialize one chunk: length, type, data, CRC. -/
def chunkBytes (c : PngChunk) : List ℕ := u32be c.data.length ++ c.ctype ++ c.data ++ c.crc

/-- Serialize a chunk sequence. -/
def chunksBytes (cs : List PngChunk) : List ℕ := (cs.map chunkBytes).flatten

/-- The real 8-byte PNG signature. -/
def pngSig : List ℕ := [137, 80, 78, 71, 13, 10, 26, 10]

/-- What `parsePngPhys` computes from the first `pHYs` chunk it meets
(lines 62-72 of `src/lib/metadata.js`), expressed over the chunk itself. -/
def physChunkResult (c : PngChunk) : Option (ℚ × ℚ) :=
  if 9 ≤ (c.data.length : ℤ) then
    if byteAt c.data 8 = 1 then
      some (round2 ((readUint32 c.data 0 false : ℚ) * (254 / 10000)),
            round2 ((readUint32 c.data 4 false : ℚ) * (254 / 10000)))
    else none
  else none

/-- The character codes of `'JFIF\u0000'`. -/
def jfifIdent : List ℕ := [74, 70, 73, 70, 0]

/-- The segment loop of `parseJpegJfifDpi` (`src/lib/metadata.js` lines
79-112): scan marker segments from offset 2; a byte other than `0xFF` at a
marker position aborts; an APP0 segment whose 5 identifier bytes spell
`JFIF\0` yields the density pair when the unit byte is 1 (dpi) or 2 (dpcm,
times 2.54); the walk stops at SOS (`0xDA`). `fuel` only bounds the number
of loop iterations (each advances the offset by at least 2). -/
def jfifWalk (bytes : List ℕ) : ℕ → ℕ → Option (ℚ × ℚ)
  | 0, _ => none
  | fuel + 1, off =>
    if off + 4 < bytes.length then
      if byteAtN bytes off = 255 then
        let marker := byteAtN bytes (off + 1)
        let size := byteAtN bytes (off + 2) * 256 + byteAtN bytes (off + 3)
        let next := fun (_ : Unit) =>
          if marker = 218 then none else jfifWalk bytes fuel (off + 2 + size)
        if marker = 224 then
          if [byteAtN bytes (off + 4), byteAtN bytes (off + 5), byteAtN bytes (off + 6),
              byteAtN bytes (off + 7), byteAtN bytes (off + 8)] = jfifIdent then
            let units := byteAtN bytes (off + 9)
            let xD := byteAtN bytes (off + 10) * 256 + byteAtN bytes (off + 11)
            let yD := byteAtN bytes (off + 12) * 256 + byteAtN bytes (off + 13)
            if units = 1 then some ((xD : ℚ), (yD : ℚ))
            else if units = 2 then
              some (round2 ((xD : ℚ) * (254 / 100)), round2 ((yD : ℚ) * (254 / 100)))
            else next ()
          else next ()
        else next ()
      else none
    else none

/-- `parseJpegJfifDpi` from `src/lib/metadata.js`: scan from offset 2. -/
def parseJpegJfifDpi (bytes : List ℕ) : Option (ℚ × ℚ) :=
  jfifWalk bytes (bytes.length + 1) 2

/-- `byteOrder === 'II'`: the two bytes at the TIFF region start both spell
`I` (code 73). Anything else — including `MM` — makes `isLE` false. -/
def isII (bytes : List ℕ) (ts : ℤ) : Bool :=
  byteAt bytes ts == 73 && byteAt bytes (ts + 1) == 73

/-- Accumulator of the IFD0 entry loop of `readExifDpi`. -/
structure DpiState where
  xRes : Option ℚ
  yRes : Option ℚ
  unit : ℤ
deriving DecidableEq, Repr

/-- One 12-byte directory entry of the `readExifDpi` loop
(`src/lib/metadata.js` lines 146-167): tag `0x0128` stores the raw 32-bit
value-or-offset field into `unit` with no type/count check; tags
`0x011A`/`0x011B` require type RATIONAL (5) and count 1, bounds-check the
addressed 8 bytes, and store `num/den` (0 when `den` is 0). -/
def exifDpiEntry (bytes : List ℕ) (ts tl : ℤ) (le : Bool) (entry : ℤ)
    (st : DpiState) : DpiState :=
  let tag := readUint16 bytes entry le
  let ty := readUint16 bytes (entry + 2) le
  let count := readUint32 bytes (entry + 4) le
  let vo := readUint32 bytes (entry + 8) le
  let st1 := if tag = 296 then { st with unit := vo } else st
  if tag = 282 ∨ tag = 283 then
    if ty = 5 ∧ count = 1 then
      let addr := ts + vo
      if addr + 8 ≤ ts + tl then
        let num := readUint32 bytes addr le
        let den := readUint32 bytes (addr + 4) le
        let v : ℚ := if den = 0 then 0 else (num : ℚ) / (den : ℚ)
        if tag = 282 then { st1 with xRes := some v } else { st1 with yRes := some v }
      else st1
    else st1
  else st1

/-- The shared IFD entry loop: `numEntries` fixed-size 12-byte entries from
`base + 2`, breaking when an entry would overrun the TIFF region. -/
def ifdLoop {σ : Type} (step : ℤ → σ → σ) (ts tl base : ℤ) : ℕ → ℕ → σ → σ
  | _, 0, st => st
  | i, r + 1, st =>
    let entry := base + 2 + (i : ℤ) * 12
    if entry + 12 ≤ ts + tl then ifdLoop step ts tl base (i + 1) r (step entry st)
    else st

/-- The final dispatch of `readExifDpi` (lines 168-172): JS truthiness
(`xRes && yRes`) demands both resolutions present and nonzero; unit 2 is
inches (pass-through), unit 3 centimeters (times 2.54), anything else no
DPI. -/
def dpiOfState (st : DpiState) : Option (ℚ × ℚ) :=
  if st.xRes.getD 0 ≠ 0 ∧ st.yRes.getD 0 ≠ 0 then
    if st.unit = 2 then some (round2 (st.xRes.getD 0), round2 (st.yRes.getD 0))
    else if st.unit = 3 then
      some (round2 (st.xRes.getD 0 * (254 / 100)), round2 (st.yRes.getD 0 * (254 / 100)))
    else none
  else none

/-- `readExifDpi` from `src/lib/metadata.js`: TIFF header (byte order, magic
42, IFD0 offset), then the entry loop from the default state
`{xRes: null, yRes: null, unit: 2}`. -/
def readExifDpi (bytes : List ℕ) (ts tl : ℤ) : Option (ℚ × ℚ) :=
  if tl < 8 then none
  else
    let le := isII bytes ts
    if readUint16 bytes (ts + 2) le ≠ 42 then none
    else
      let ifd0 := ts + readUint32 bytes (ts + 4) le
      if ts + tl < ifd0 + 2 then none
      else
        let n := readUint16 bytes ifd0 le
        dpiOfState (ifdLoop (exifDpiEntry bytes ts tl le) ts tl ifd0 0 n ⟨none, none, 2⟩)

/-- The character codes of `Exif` (the prefix tested by `startsWith`). -/
def exifIdent : List ℕ := [69, 120, 105, 102]

/-- The segment loop of `parseJpegExifDpi` (lines 114-132): find an APP1
segment of size ≥ 8 whose identifier starts with `Exif` and hand the
embedded TIFF region (10 bytes after the marker, spanning `size - 8`) to
`readExifDpi`; stop at SOS; abort on marker misalignment. -/
def exifSegWalk (bytes : List ℕ) : ℕ → ℕ → Option (ℚ × ℚ)
  | 0, _ => none
  | fuel + 1, off =>
    if off + 4 < bytes.length then
      if byteAtN bytes off = 255 then
        let marker := byteAtN bytes (off + 1)
        let size := byteAtN bytes (off + 2) * 256 + byteAtN bytes (off + 3)
        let next := fun (_ : Unit) =>
          if marker = 218 then none else exifSegWalk bytes fuel (off + 2 + size)
        if marker = 225 ∧ 8 ≤ size then
          if [byteAtN bytes (off + 4), byteAtN bytes (off + 5), byteAtN bytes (off + 6),
              byteAtN bytes (off + 7)] = exifIdent then
            readExifDpi bytes ((off : ℤ) + 10) ((size : ℤ) - 8)
          else next ()
        else next ()
      else none
    else none

/-- `parseJpegExifDpi` from `src/lib/metadata.js`. -/
def parseJpegExifDpi (bytes : List ℕ) : Option (ℚ × ℚ) :=
  exifSegWalk bytes (bytes.length + 1) 2

/-- Which probe produced the DPI pair (the `dpiSource` string constants). -/
inductive DpiSource where
  | pngPhys | jpegJfif | jpegExif
deriving DecidableEq, Repr

/-- The `{dpiX, dpiY, dpiSource}` triple returned by `detectDpi`. -/
structure DpiResult where
  dpiX : Option ℚ
  dpiY : Option ℚ
  dpiSource : Option DpiSource
deriving DecidableEq, Repr

/-- `detectDpi` from `src/lib/metadata.js` / the extended module: PNG tries
`pHYs`; JPEG tries JFIF first and consults EXIF only when JFIF yields
nothing; other formats (and any caught parse exception — the embedded
parsers are total, the JS bodies contain no throwing operation) yield the
all-null result. -/
def detectDpi (bytes : List ℕ) (format : Format) : DpiResult :=
  match format with
  | .PNG =>
    match parsePngPhys bytes with
    | some p => ⟨some p.1, some p.2, some .pngPhys⟩
    | none => ⟨none, none, none⟩
  | .JPEG =>
    match parseJpegJfifDpi bytes with
    | some p => ⟨some p.1, some p.2, some .jpegJfif⟩
    | none =>
      match parseJpegExifDpi bytes with
      | some q => ⟨some q.1, some q.2, some .jpegExif⟩
      | none => ⟨none, none, none⟩
  | _ => ⟨none, none, none⟩

/-- The inline-value character loop of `readExifAscii` (count ≤ 4): the
string is packed into the 32-bit value field; bytes are extracted by shifts
(`u` is the field taken as an unsigned 32-bit number, which agrees with the
source's sign-propagating `>>` followed by `& 0xFF`), stopping at a zero
byte. `i` is the character index, the second argument the remaining count. -/
def inlineAscii (u : ℕ) (le : Bool) : ℕ → ℕ → List ℕ
  | _, 0 => []
  | i, r + 1 =>
    let b := if le then u / 256 ^ i % 256 else u / 256 ^ (3 - i) % 256
    if b = 0 then [] else b :: inlineAscii u le (i + 1) r

/-- The offset-addressed character loop of `readExifAscii`: read up to `r`
bytes from position `p`, stopping at an in-range zero byte (an out-of-range
read is JS `undefined`, which is not `=== 0` and is pushed as `'\0'`). -/
def asciiAt (bytes : List ℕ) : ℤ → ℕ → List ℕ
  | _, 0 => []
  | p, r + 1 =>
    if inBounds bytes p ∧ byteAt bytes p = 0 then []
    else byteAt bytes p :: asciiAt bytes (p + 1) r

/-- `readExifAscii` from the extended metadata module: type must be ASCII
(2) with count ≥ 1; counts ≤ 4 are inline in the value field, larger counts
are read at `region start + offset`, clipped to the region's extent. -/
def readExifAscii (bytes : List ℕ) (ts tl : ℤ) (ty : ℕ) (count vo : ℤ)
    (le : Bool) : Option (List ℕ) :=
  if ty ≠ 2 ∨ count < 1 then none
  else if count ≤ 4 then some (inlineAscii (vo % 2 ^ 32).toNat le 0 count.toNat)
  else
    let start := ts + vo
    let len := min count (max 0 (ts + tl - start))
    some (asciiAt bytes start len.toNat)

/-- The pair loop of `readExifRationalArray`: `r` numerator/denominator
32-bit pairs starting at `p`. -/
def rationalPairs (bytes : List ℕ) (le : Bool) : ℤ → ℕ → List (ℤ × ℤ)
  | _, 0 => []
  | p, r + 1 =>
    (readUint32 bytes p le, readUint32 bytes (p + 4) le) :: rationalPairs bytes le (p + 8) r

/-- `readExifRationalArray` from the extended metadata module: type must be
RATIONAL (5) with count ≥ 1, and the `8 * count` bytes at
`region start + offset` must fit in the region. -/
def readExifRationalArray (bytes : List ℕ) (ts tl : ℤ) (ty : ℕ) (count vo : ℤ)
    (le : Bool) : Option (List (ℤ × ℤ)) :=
  if ty ≠ 5 ∨ count < 1 then none
  else
    let start := ts + vo
    if ts + tl < start + 8 * count then none
    else some (rationalPairs bytes le start count.toNat)

/-- `rationalToNumber`: `num / den`, `0` when the denominator is `0`. -/
def rationalToNumber (r : ℤ × ℤ) : ℚ :=
  if r.2 = 0 then 0 else (r.1 : ℚ) / (r.2 : ℚ)

/-- `dmsToDecimal` from the extended metadata module:
`Math.abs(deg) + min/60 + sec/3600`, negated when `sign < 0`. -/
def dmsToDecimal (deg min sec : ℚ) (sign : ℤ) : ℚ :=
  (|deg| + min / 60 + sec / 3600) * (if sign < 0 then -1 else 1)

/-- Accumulator of the IFD0 loop of `readExifGeneral`. -/
structure GenState where
  make : Option (List ℕ)
  model : Option (List ℕ)
  software : Option (List ℕ)
  gpsIfdPtr : Option ℤ
deriving DecidableEq, Repr

/-- One IFD0 entry of `readExifGeneral` (lines 198-217 of the extended
module): tags `0x010F`/`0x0110`/`0x0131` decode an ASCII string (kept only
when non-null), tag `0x8825` records the GPS IFD pointer. -/
def genEntryStep (bytes : List ℕ) (ts tl : ℤ) (le : Bool) (entry : ℤ)
    (st : GenState) : GenState :=
  let tag := readUint16 bytes entry le
  let ty := readUint16 bytes (entry + 2) le
  let count := readUint32 bytes (entry + 4) le
  let vo := readUint32 bytes (entry + 8) le
  let st1 :=
    if tag = 271 ∨ tag = 272 ∨ tag = 305 then
      match readExifAscii bytes ts tl ty count vo le with
      | some s =>
        if tag = 271 then { st with make := some s }
        else if tag = 272 then { st with model := some s }
        else { st with software := some s }
      | none => st
    else st
  if tag = 34853 then { st1 with gpsIfdPtr := some vo } else st1

/-- Accumulator of the GPS sub-IFD loop of `readExifGeneral`. -/
structure GpsState where
  latRef : Option (List ℕ)
  lonRef : Option (List ℕ)
  lat : Option (List (ℤ × ℤ))
  lon : Option (List (ℤ × ℤ))
deriving DecidableEq, Repr

/-- One GPS sub-IFD entry of `readExifGeneral` (lines 227-243): tags 1-4
assign the latitude/longitude reference strings and rational triples
(overwriting with `null` when the typed decode fails, as the source
assigns the raw result). -/
def gpsEntryStep (bytes : List ℕ) (ts tl : ℤ) (le : Bool) (entry : ℤ)
    (st : GpsState) : GpsState :=
  let tag := readUint16 bytes entry le
  let ty := readUint16 bytes (entry + 2) le
  let count := readUint32 bytes (entry + 4) le
  let vo := readUint32 bytes (entry + 8) le
  if tag = 1 then { st with latRef := readExifAscii bytes ts tl ty count vo le }
  else if tag = 2 then { st with lat := readExifRationalArray bytes ts tl ty count vo le }
  else if tag = 3 then { st with lonRef := readExifAscii bytes ts tl ty count vo le }
  else if tag = 4 then { st with lon := readExifRationalArray bytes ts tl ty count vo le }
  else st

/-- Lines 244-253 of the extended module: both coordinates require
rational triples of length ≥ 3; each is `dmsToDecimal` of the three
rational values with sign `-1` exactly for reference `S` (latitude) or `W`
(longitude). -/
def gpsRaw (latRef lonRef : Option (List ℕ)) (lat lon : Option (List (ℤ × ℤ))) :
    Option ℚ × Option ℚ :=
  match lat, lon with
  | some la, some lo =>
    if 3 ≤ la.length ∧ 3 ≤ lo.length then
      (some (dmsToDecimal (rationalToNumber (la.getD 0 (0, 0)))
          (rationalToNumber (la.getD 1 (0, 0))) (rationalToNumber (la.getD 2 (0, 0)))
          (if latRef = some [83] then -1 else 1)),
       some (dmsToDecimal (rationalToNumber (lo.getD 0 (0, 0)))
          (rationalToNumber (lo.getD 1 (0, 0))) (rationalToNumber (lo.getD 2 (0, 0)))
          (if lonRef = some [87] then -1 else 1)))
    else (none, none)
  | _, _ => (none, none)

/-- The partial record assembled by `readExifGeneral`. -/
structure GeneralObj where
  make : Option (List ℕ)
  model : Option (List ℕ)
  software : Option (List ℕ)
  gpsLatitude : Option ℚ
  gpsLongitude : Option ℚ
deriving DecidableEq, Repr

/-- `readExifGeneral` from the extended metadata module: TIFF header checks
(byte order, magic 42, IFD0 in range), the IFD0 loop for
Make/Model/Software and the GPS pointer, the GPS sub-IFD loop, and the
output record with coordinates rounded to 6 decimals. -/
def readExifGeneral (bytes : List ℕ) (ts tl : ℤ) : Option GeneralObj :=
  if tl < 8 then none
  else
    let le := isII bytes ts
    if readUint16 bytes (ts + 2) le ≠ 42 then none
    else
      let ifd0 := ts + readUint32 bytes (ts + 4) le
      if ts + tl < ifd0 + 2 then none
      else
        let n := readUint16 bytes ifd0 le
        let g := ifdLoop (genEntryStep bytes ts tl le) ts tl ifd0 0 n ⟨none, none, none, none⟩
        let gps :=
          match g.gpsIfdPtr with
          | some ptr =>
            let gpsStart := ts + ptr
            if gpsStart + 2 ≤ ts + tl then
              let gn := readUint16 bytes gpsStart le
              let gs := ifdLoop (gpsEntryStep bytes ts tl le) ts tl gpsStart 0 gn
                ⟨none, none, none, none⟩
              gpsRaw gs.latRef gs.lonRef gs.lat gs.lon
            else (none, none)
          | none => (none, none)
        some ⟨g.make, g.model, g.software, gps.1.map round6, gps.2.map round6⟩

/-- The `extras` object assembled for the metadata record (in JS, fields
may simply be missing: `none` models an absent field). -/
structure ExtrasObj where
  exifPresent : Option Bool
  make : Option (List ℕ)
  model : Option (List ℕ)
  software : Option (List ℕ)
  gpsLatitude : Option ℚ
  gpsLongitude : Option ℚ
  gpsPresent : Option Bool
deriving DecidableEq, Repr

/-- The empty `{}` extras object. -/
def emptyExtras : ExtrasObj := ⟨none, none, none, none, none, none, none⟩

/-- Lines 170-173 of the extended module: take `readExifGeneral`'s record
(or `{}` when it failed), set `exifPresent`, and set `gpsPresent` only when
both coordinates are present. -/
def mkExtras (g : Option GeneralObj) : ExtrasObj :=
  let o := g.getD ⟨none, none, none, none, none⟩
  ⟨some true, o.make, o.model, o.software, o.gpsLatitude, o.gpsLongitude,
    if o.gpsLatitude ≠ none ∧ o.gpsLongitude ≠ none then some true else none⟩

/-- The segment loop of `parseJpegExifExtras` (lines 158-180): like the
EXIF DPI walk but producing the extras object; the loop running off the end
or hitting SOS yields `{exifPresent: false}`, marker misalignment yields
`null`. -/
def extrasWalk (bytes : List ℕ) : ℕ → ℕ → Option ExtrasObj
  | 0, _ => none
  | fuel + 1, off =>
    if off + 4 < bytes.length then
      if byteAtN bytes off = 255 then
        let marker := byteAtN bytes (off + 1)
        let size := byteAtN bytes (off + 2) * 256 + byteAtN bytes (off + 3)
        let next := fun (_ : Unit) =>
          if marker = 218 then some { emptyExtras with exifPresent := some false }
          else extrasWalk bytes fuel (off + 2 + size)
        if marker = 225 ∧ 8 ≤ size then
          if [byteAtN bytes (off + 4), byteAtN bytes (off + 5), byteAtN bytes (off + 6),
              byteAtN bytes (off + 7)] = exifIdent then
            some (mkExtras (readExifGeneral bytes ((off : ℤ) + 10) ((size : ℤ) - 8)))
          else next ()
        else next ()
      else none
    else some { emptyExtras with exifPresent := some false }

/-- `parseJpegExifExtras` from the extended metadata module. -/
def parseJpegExifExtras (bytes : List ℕ) : Option ExtrasObj :=
  extrasWalk bytes (bytes.length + 1) 2

/-- The fields of an `exifr.parse` result that `extractMetadata` consumes
(`exifr` is an external package; its output is an oracle parameter). -/
structure ExifrData where
  make : Option (List ℕ)
  model : Option (List ℕ)
  software : Option (List ℕ)
  latitude : Option ℚ
  longitude : Option ℚ
deriving DecidableEq, Repr

/-- JS string truthiness: an absent or empty string is falsy. -/
def truthyStr (o : Option (List ℕ)) : Option (List ℕ) :=
  match o with
  | some s => if s = [] then none else some s
  | none => none

/-- Lines 13-20 of the extended module: the extras object built from a
non-null `exifr` result. -/
def extrasOfExifr (e : ExifrData) : ExtrasObj :=
  ⟨some true, truthyStr e.make, truthyStr e.model, truthyStr e.software,
    e.latitude.map round6, e.longitude.map round6,
    if e.latitude.isSome ∧ e.longitude.isSome then some true else none⟩

/-- The canonical metadata record returned by `extractMetadata` (width and
height come from an external image probe and are passed through). -/
structure MetaRecord where
  format : Format
  width : Option ℕ
  height : Option ℕ
  dpiX : Option ℚ
  dpiY : Option ℚ
  dpiSource : Option DpiSource
  exifPresent : Option Bool
  make : Option (List ℕ)
  model : Option (List ℕ)
  software : Option (List ℕ)
  gpsLatitude : Option ℚ
  gpsLongitude : Option ℚ
  gpsPresent : Option Bool
deriving DecidableEq, Repr

/-- `extractMetadata` from the extended metadata module. The call to the
external `exifr.parse` is an oracle argument: `.ok (some e)` a successful
parse, `.ok none` a null result, `.error ()` a thrown exception. The
source's `try`/`catch` around it maps the thrown case to the same JPEG
fallback parser as the null case (`parseJpegExifExtras`, whose own `null`
result degrades to `{}`), so the function is total: no probe outcome
escapes as an exception. -/
def extractMetadata (bytes : List ℕ) (exifrRes : Except Unit (Option ExifrData))
    (width height : Option ℕ) : MetaRecord :=
  let format := detectFormat bytes
  let dpi := detectDpi bytes format
  let extras :=
    match exifrRes with
    | .ok (some e) => extrasOfExifr e
    | .ok none =>
      if format = Format.JPEG then (parseJpegExifExtras bytes).getD emptyExtras else emptyExtras
    | .error _ =>
      if format = Format.JPEG then (parseJpegExifExtras bytes).getD emptyExtras else emptyExtras
  ⟨format, width, height, dpi.dpiX, dpi.dpiY, dpi.dpiSource, extras.exifPresent,
    extras.make, extras.model, extras.software, extras.gpsLatitude, extras.gpsLongitude,
    extras.gpsPresent⟩

/-- The degrees/minutes/seconds RATIONAL triple built by the JPEG export
route, with the hemisphere reference character. -/
structure DmsRat where
  ref : ℕ
  d : ℤ × ℤ
  m : ℤ × ℤ
  s : ℤ × ℤ
deriving DecidableEq, Repr

/-- `degToDmsRational` from the JPEG export route (`src/unnamed/part_000`
lines 81-94): degrees → DMS with seconds kept to 3 decimals, encoded as
`[round(s*1000), 1000]`; reference `S` (83) for negative input, else `N`
(78). -/
def degToDmsRational (deg : ℚ) : DmsRat :=
  let a := |deg|
  let d : ℤ := ⌊a⌋
  let minFloat := (a - d) * 60
  let m : ℤ := ⌊minFloat⌋
  let secFloat := (minFloat - m) * 60
  let s : ℚ := (jround (secFloat * 1000) : ℚ) / 1000
  ⟨if deg < 0 then 83 else 78, (d, 1), (m, 1), (jround (s * 1000), 1000)⟩

/-- `degToDmsRationalLon` from the JPEG export route (lines 96-109):
identical arithmetic with references `W` (87) / `E` (69). -/
def degToDmsRationalLon (deg : ℚ) : DmsRat :=
  let a := |deg|
  let d : ℤ := ⌊a⌋
  let minFloat := (a - d) * 60
  let m : ℤ := ⌊minFloat⌋
  let secFloat := (minFloat - m) * 60
  let s : ℚ := (jround (secFloat * 1000) : ℚ) / 1000
  ⟨if deg < 0 then 87 else 69, (d, 1), (m, 1), (jround (s * 1000), 1000)⟩

/-- Modelled from the spec: the serialization of the encoded GPS entries
through `piexif.dump`/`piexif.insert` (the external `piexifjs` package —
not part of `src/`) and the APP1/TIFF walk back to the GPS rational
triples transport the reference letter and the three RATIONALs unchanged
(§4.7: "each encoded as a RATIONAL (seconds scaled ×1000 over denominator
1000)"). The decode arithmetic is the repository's own
`rationalToNumber`/`dmsToDecimal`/`round6` (extended module lines 251, 261). -/
def gpsRoundTripLat (deg : ℚ) : ℚ :=
  let r := degToDmsRational deg
  round6 (dmsToDecimal (rationalToNumber r.d) (rationalToNumber r.m)
    (rationalToNumber r.s) (if r.ref = 83 then -1 else 1))

/-- Modelled from the spec: longitude counterpart of `gpsRoundTripLat`,
with the decoder's sign test against `W` (87). -/
def gpsRoundTripLon (deg : ℚ) : ℚ :=
  let r := degToDmsRationalLon deg
  round6 (dmsToDecimal (rationalToNumber r.d) (rationalToNumber r.m)
    (rationalToNumber r.s) (if r.ref = 87 then -1 else 1))

/-- Modelled from the spec: `injectExif` stores Make/Model as EXIF ASCII
values via `piexif.dump` and the decode path returns the stored strings
(§4.7 with §4.4); the byte transport of the two strings is the identity,
so the encode/decode composition on the field set is componentwise. -/
def exifFieldsRoundTrip (make model : List ℕ) (lat lon : ℚ) :
    List ℕ × List ℕ × ℚ × ℚ :=
  (make, model, gpsRoundTripLat lat, gpsRoundTripLon lon)

/-- A JPEG whose APP0 segment carries `JFIF\0` with unit byte 1 and X/Y
densities 72 at the offsets `parseJpegJfifDpi` reads. -/
def jfif72 : List ℕ :=
  [255, 216, 255, 224, 0, 16, 74, 70, 73, 70, 0, 1, 0, 72, 0, 72, 0, 0]

/-- A TIFF region whose byte-order marker is `AB` (65 66) — neither `II`
nor `MM` — followed by big-endian magic 42, IFD0 at 8 with two entries:
XResolution and YResolution, RATIONAL count 1, both 300/1. -/
def tiffAB : List ℕ :=
  [65, 66, 0, 42, 0, 0, 0, 8,
   0, 2,
   1, 26, 0, 5, 0, 0, 0, 1, 0, 0, 0, 38,
   1, 27, 0, 5, 0, 0, 0, 1, 0, 0, 0, 46,
   0, 0, 0, 0,
   0, 0, 1, 44, 0, 0, 0, 1,
   0, 0, 1, 44, 0, 0, 0, 1]

/-- A little-endian TIFF region with a GPS sub-IFD: GPSLatitudeRef `N`,
GPSLatitude `[2147483649/1, 0/1, 0/1]` (numerator `0x80000001`, which the
signed 32-bit read turns into `-2147483647`), GPSLongitudeRef `E`,
GPSLongitude `[18/1, 4/1, 6/1]`. -/
def tiffGps : List ℕ :=
  [73, 73, 42, 0, 8, 0, 0, 0,
   1, 0,
   37, 136, 4, 0, 1, 0, 0, 0, 22, 0, 0, 0,
   4, 0,
   1, 0, 2, 0, 2, 0, 0, 0, 78, 0, 0, 0,
   2, 0, 5, 0, 3, 0, 0, 0, 72, 0, 0, 0,
   3, 0, 2, 0, 2, 0, 0, 0, 69, 0, 0, 0,
   4, 0, 5, 0, 3, 0, 0, 0, 96, 0, 0, 0,
   1, 0, 0, 128, 1, 0, 0, 0,
   0, 0, 0, 0, 1, 0, 0, 0,
   0, 0, 0, 0, 1, 0, 0, 0,
   18, 0, 0, 0, 1, 0, 0, 0,
   4, 0, 0, 0, 1, 0, 0, 0,
   6, 0, 0, 0, 1, 0, 0, 0]

/-- A big-endian (`MM`) TIFF region with three IFD0 entries: an inline
SHORT ResolutionUnit 2 stored TIFF-style in the two leading bytes of the
value field (`00 02 00 00`), and X/YResolution 300/1 RATIONALs. -/
def tiffMM2 : List ℕ :=
  [77, 77, 0, 42, 0, 0, 0, 8,
   0, 3,
   1, 40, 0, 3, 0, 0, 0, 1, 0, 2, 0, 0,
   1, 26, 0, 5, 0, 0, 0, 1, 0, 0, 0, 46,
   1, 27, 0, 5, 0, 0, 0, 1, 0, 0, 0, 54,
   0, 0, 1, 44, 0, 0, 0, 1,
   0, 0, 1, 44, 0, 0, 0, 1]

/-- `tiffMM2` with the ResolutionUnit value field holding 2 as a full
32-bit number (`00 00 00 02`) instead of an inline SHORT. -/
def tiffMM2full : List ℕ :=
  [77, 77, 0, 42, 0, 0, 0, 8,
   0, 3,
   1, 40, 0, 3, 0, 0, 0, 1, 0, 0, 0, 2,
   1, 26, 0, 5, 0, 0, 0, 1, 0, 0, 0, 46,
   1, 27, 0, 5, 0, 0, 0, 1, 0, 0, 0, 54,
   0, 0, 1, 44, 0, 0, 0, 1,
   0, 0, 1, 44, 0, 0, 0, 1]

/-- A `pHYs` chunk with 3937 pixels per meter on both axes, unit 1. -/
def phys3937 : PngChunk :=
  ⟨physTag, u32be 3937 ++ u32be 3937 ++ [1], [0, 0, 0, 0]⟩

/-- A `pHYs` chunk with 3937 pixels per meter on both axes but unit 0. -/
def physUnit0 : PngChunk :=
  ⟨physTag, u32be 3937 ++ u32be 3937 ++ [0], [0, 0, 0, 0]⟩

/-- A PNG buffer whose first chunk is `phys3937`. -/
def pngPhys3937 : List ℕ := pngSig ++ chunkBytes phys3937

/-- An 8-byte TIFF region with byte order `MM` but magic number 43. -/
def tiffBadMagic : List ℕ := [77, 77, 0, 43, 0, 0, 0, 0]

/-- A single big-endian ResolutionUnit (tag 0x0128) directory entry whose
value field holds the inline SHORT 32768 in its two leading bytes. -/
def ruEntryBE : List ℕ := [1, 40, 0, 3, 0, 0, 0, 1, 128, 0, 0, 0]

theorem byteAtN_eq_getD (bs : List ℕ) (i : ℕ) : byteAtN bs i = bs.getD i 0 := rfl

theorem byteAt_ofNat (bs : List ℕ) (i : ℕ) : byteAt bs (i : ℤ) = byteAtN bs i := by
  simp [byteAt, byteAtN]

theorem byteAtN_short (bs : List ℕ) (i : ℕ) (h : bs.length ≤ i) : byteAtN bs i = 0 := by
  unfold byteAtN
  exact List.getD_eq_default _ _ h

theorem byteAt_append_right (A l : List ℕ) (i : ℤ) (h : 0 ≤ i) :
    byteAt (A ++ l) ((A.length : ℤ) + i) = byteAt l i := by
  have h0 : (0 : ℤ) ≤ (A.length : ℤ) + i := by positivity
  have ht : ((A.length : ℤ) + i).toNat = A.length + i.toNat := by omega
  simp only [byteAt, if_pos h0, if_pos h, ht, byteAtN]
  rw [List.getD_append_right A l 0 (A.length + i.toNat) (by omega)]
  congr 1
  omega

theorem byteAt_append_left (A l : List ℕ) (i : ℤ) (h : i < (A.length : ℤ)) :
    byteAt (A ++ l) i = byteAt A i := by
  by_cases h0 : 0 ≤ i
  · simp only [byteAt, if_pos h0, byteAtN]
    exact List.getD_append A l 0 i.toNat (by omega)
  · simp [byteAt, if_neg h0]

theorem toInt32_small (n : ℕ) (h : n < 2 ^ 31) : toInt32 n = n := by
  unfold toInt32
  omega

theorem readUint16_shift (A l : List ℕ) (i : ℤ) (h : 0 ≤ i) (le : Bool) :
    readUint16 (A ++ l) ((A.length : ℤ) + i) le = readUint16 l i le := by
  have e1 : (A.length : ℤ) + i + 1 = (A.length : ℤ) + (i + 1) := by ring
  unfold readUint16
  rw [e1, byteAt_append_right A l i h, byteAt_append_right A l (i + 1) (by omega)]

theorem readUint32_shift (A l : List ℕ) (i : ℤ) (h : 0 ≤ i) (le : Bool) :
    readUint32 (A ++ l) ((A.length : ℤ) + i) le = readUint32 l i le := by
  have e1 : (A.length : ℤ) + i + 1 = (A.length : ℤ) + (i + 1) := by ring
  have e2 : (A.length : ℤ) + i + 2 = (A.length : ℤ) + (i + 2) := by ring
  have e3 : (A.length : ℤ) + i + 3 = (A.length : ℤ) + (i + 3) := by ring
  unfold readUint32
  rw [e1, e2, e3, byteAt_append_right A l i h, byteAt_append_right A l (i + 1) (by omega),
    byteAt_append_right A l (i + 2) (by omega), byteAt_append_right A l (i + 3) (by omega)]

theorem length_u32be (n : ℕ) : (u32be n).length = 4 := by simp [u32be]

theorem readUint32_u32be (n : ℕ) (suf : List ℕ) (h : n < 2 ^ 31) :
    readUint32 (u32be n ++ suf) 0 false = n := by
  have b0 : byteAt (u32be n ++ suf) 0 = n / 16777216 % 256 := by
    simp [u32be, byteAt, byteAtN]
  have b1 : byteAt (u32be n ++ suf) 1 = n / 65536 % 256 := by
    simp [u32be, byteAt, byteAtN]
  have b2 : byteAt (u32be n ++ suf) 2 = n / 256 % 256 := by
    simp [u32be, byteAt, byteAtN]
  have b3 : byteAt (u32be n ++ suf) 3 = n % 256 := by
    simp [u32be, byteAt, byteAtN]
  unfold readUint32
  simp only [Bool.false_eq_true, if_false, zero_add, b0, b1, b2, b3]
  have hs : n / 16777216 % 256 * 16777216 + n / 65536 % 256 * 65536 + n / 256 % 256 * 256 +
      n % 256 = n := by omega
  rw [hs]
  exact toInt32_small n (by omega)

theorem jround_abs_le (x : ℚ) : |(jround x : ℚ) - x| ≤ 1 / 2 := by
  unfold jround
  have h1 : ((⌊x + 1 / 2⌋ : ℤ) : ℚ) ≤ x + 1 / 2 := Int.floor_le _
  have h2 : x + 1 / 2 - 1 < ((⌊x + 1 / 2⌋ : ℤ) : ℚ) := Int.sub_one_lt_floor _
  rw [abs_le]
  constructor <;> linarith

theorem round6_abs_le (x : ℚ) : |round6 x - x| ≤ 1 / 2000000 := by
  have h := jround_abs_le (x * 1000000)
  unfold round6
  have e : (jround (x * 1000000) : ℚ) / 1000000 - x =
      ((jround (x * 1000000) : ℚ) - x * 1000000) / 1000000 := by ring
  rw [e, abs_div]
  have ha : |(1000000 : ℚ)| = 1000000 := by norm_num
  have e2 : (1 : ℚ) / 2000000 = (1 / 2) / 1000000 := by norm_num
  rw [ha, e2]
  exact (div_le_div_iff_of_pos_right (by norm_num)).mpr h

theorem list_eq_four (l : List ℕ) (h : l.length = 4) :
    l = [l.getD 0 0, l.getD 1 0, l.getD 2 0, l.getD 3 0] := by
  match l, h with
  | [a, b, c, d], _ => rfl

theorem length_chunkBytes (c : PngChunk) (h4 : c.ctype.length = 4) (hcrc : c.crc.length = 4) :
    (chunkBytes c).length = 12 + c.data.length := by
  simp [chunkBytes, u32be, h4, hcrc]
  omega

theorem pngWalk_succ (bytes : List ℕ) (fuel : ℕ) (off : ℤ) :
    pngWalk bytes (fuel + 1) off =
      if off + 8 ≤ (bytes.length : ℤ) then
        let len := readUint32 bytes off false
        let ds := off + 8
        if [byteAt bytes (off + 4), byteAt bytes (off + 5), byteAt bytes (off + 6),
            byteAt bytes (off + 7)] = physTag then
          if 9 ≤ len then
            let px := readUint32 bytes ds false
            let py := readUint32 bytes (ds + 4) false
            if byteAt bytes (ds + 8) = 1 then
              some (round2 ((px : ℚ) * (254 / 10000)), round2 ((py : ℚ) * (254 / 10000)))
            else none
          else none
        else pngWalk bytes fuel (ds + len + 4)
      else none := rfl

theorem pngWalk_chunk_step (A : List ℕ) (c : PngChunk) (suf : List ℕ) (fuel : ℕ)
    (hwf : wfChunk c) :
    pngWalk (A ++ (chunkBytes c ++ suf)) (fuel + 1) (A.length : ℤ)
      = if c.ctype = physTag then physChunkResult c
        else pngWalk (A ++ (chunkBytes c ++ suf)) fuel
          ((A.length : ℤ) + (12 + (c.data.length : ℤ))) := by
  obtain ⟨h4, hcrc, hlt, -, -, -⟩ := hwf
  have hlenc : (chunkBytes c).length = 12 + c.data.length := length_chunkBytes c h4 hcrc
  have hlen : (A ++ (chunkBytes c ++ suf)).length
      = A.length + (12 + c.data.length) + suf.length := by
    simp [hlenc]
    omega
  have hguard : (A.length : ℤ) + 8 ≤ ((A ++ (chunkBytes c ++ suf)).length : ℤ) := by
    rw [hlen]
    push_cast
    omega
  have hassoc : chunkBytes c ++ suf
      = u32be c.data.length ++ (c.ctype ++ (c.data ++ (c.crc ++ suf))) := by
    simp [chunkBytes]
  have hread : readUint32 (A ++ (chunkBytes c ++ suf)) ((A.length : ℤ)) false
      = (c.data.length : ℤ) := by
    have e0 : (A.length : ℤ) = (A.length : ℤ) + 0 := by ring
    rw [e0, readUint32_shift A _ 0 le_rfl false, hassoc]
    exact readUint32_u32be c.data.length _ hlt
  have htypeZ : ∀ i : ℤ, 0 ≤ i → i < 4 →
      byteAt (A ++ (chunkBytes c ++ suf)) ((A.length : ℤ) + (4 + i)) = byteAt c.ctype i := by
    intro i h0 h4'
    rw [byteAt_append_right A _ (4 + i) (by omega), hassoc]
    have e4 : (4 : ℤ) + i = ((u32be c.data.length).length : ℤ) + i := by
      rw [length_u32be]; rfl
    rw [e4, byteAt_append_right _ _ i h0, byteAt_append_left _ _ i (by omega)]
  have hdataZ : ∀ i : ℤ, 0 ≤ i → i < (c.data.length : ℤ) →
      byteAt (A ++ (chunkBytes c ++ suf)) ((A.length : ℤ) + 8 + i) = byteAt c.data i := by
    intro i h0 hi
    have e : (A.length : ℤ) + 8 + i = (A.length : ℤ) + (8 + i) := by ring
    rw [e, byteAt_append_right A _ (8 + i) (by omega), hassoc]
    have e4 : (8 : ℤ) + i = ((u32be c.data.length).length : ℤ) + (4 + i) := by
      rw [length_u32be]; push_cast; ring
    rw [e4, byteAt_append_right _ _ (4 + i) (by omega)]
    have e5 : (4 : ℤ) + i = (c.ctype.length : ℤ) + i := by rw [h4]; rfl
    rw [e5, byteAt_append_right _ _ i h0, byteAt_append_left _ _ i hi]
  have hctypelist : [byteAt (A ++ (chunkBytes c ++ suf)) ((A.length : ℤ) + 4),
      byteAt (A ++ (chunkBytes c ++ suf)) ((A.length : ℤ) + 5),
      byteAt (A ++ (chunkBytes c ++ suf)) ((A.length : ℤ) + 6),
      byteAt (A ++ (chunkBytes c ++ suf)) ((A.length : ℤ) + 7)] = c.ctype := by
    have t0 := htypeZ 0 (by norm_num) (by norm_num)
    have t1 := htypeZ 1 (by norm_num) (by norm_num)
    have t2 := htypeZ 2 (by norm_num) (by norm_num)
    have t3 := htypeZ 3 (by norm_num) (by norm_num)
    norm_num at t0 t1 t2 t3
    rw [t0, t1, t2, t3]
    rcases hc4 : c.ctype with - | ⟨x0, - | ⟨x1, - | ⟨x2, - | ⟨x3, - | ⟨x4, t⟩⟩⟩⟩⟩ <;>
      rw [hc4] at h4 <;> simp at h4
    rfl
  have hrw : ∀ i : ℤ, 0 ≤ i → i + 3 < (c.data.length : ℤ) →
      readUint32 (A ++ (chunkBytes c ++ suf)) ((A.length : ℤ) + 8 + i) false
        = readUint32 c.data i false := by
    intro i h0 h3
    have e1 : (A.length : ℤ) + 8 + i + 1 = (A.length : ℤ) + 8 + (i + 1) := by ring
    have e2 : (A.length : ℤ) + 8 + i + 2 = (A.length : ℤ) + 8 + (i + 2) := by ring
    have e3 : (A.length : ℤ) + 8 + i + 3 = (A.length : ℤ) + 8 + (i + 3) := by ring
    unfold readUint32
    rw [e1, e2, e3, hdataZ i h0 (by omega), hdataZ (i + 1) (by omega) (by omega),
      hdataZ (i + 2) (by omega) (by omega), hdataZ (i + 3) (by omega) (by omega)]
  rw [pngWalk_succ]
  rw [if_pos hguard]
  simp only [hread, hctypelist]
  by_cases hcty : c.ctype = physTag
  · rw [if_pos hcty, if_pos hcty]
    unfold physChunkResult
    by_cases h9 : (9 : ℤ) ≤ (c.data.length : ℤ)
    · rw [if_pos h9, if_pos h9]
      have hpx := hrw 0 (by norm_num) (by omega)
      have hpy := hrw 4 (by norm_num) (by omega)
      have hunit := hdataZ 8 (by norm_num) (by omega)
      norm_num at hpx
      rw [hpx, hpy, hunit]
    · rw [if_neg h9, if_neg h9]
  · rw [if_neg hcty, if_neg hcty]
    have eoff : (A.length : ℤ) + 8 + (c.data.length : ℤ) + 4
        = (A.length : ℤ) + (12 + (c.data.length : ℤ)) := by ring
    rw [eoff]

theorem chunksBytes_cons (c : PngChunk) (cs : List PngChunk) :
    chunksBytes (c :: cs) = chunkBytes c ++ chunksBytes cs := by
  simp [chunksBytes]

theorem length_le_length_chunksBytes (cs : List PngChunk) :
    cs.length ≤ (chunksBytes cs).length := by
  induction cs with
  | nil => simp [chunksBytes]
  | cons c cs ih =>
    rw [chunksBytes_cons]
    have : 1 ≤ (chunkBytes c).length := by simp [chunkBytes, u32be]
    simp only [List.length_cons, List.length_append]
    omega

theorem pngWalk_skip (pre : List PngChunk) :
    ∀ (A suf : List ℕ) (fuel : ℕ),
      (∀ p ∈ pre, wfChunk p ∧ p.ctype ≠ physTag) →
      pngWalk (A ++ (chunksBytes pre ++ suf)) (pre.length + fuel) (A.length : ℤ)
        = pngWalk (A ++ (chunksBytes pre ++ suf)) fuel
            ((A.length : ℤ) + ((chunksBytes pre).length : ℤ)) := by
  induction pre with
  | nil => intro A suf fuel h; simp [chunksBytes]
  | cons c cs ih =>
    intro A suf fuel h
    have hc := h c (by simp)
    have hb : chunksBytes (c :: cs) ++ suf = chunkBytes c ++ (chunksBytes cs ++ suf) := by
      rw [chunksBytes_cons, List.append_assoc]
    rw [hb]
    have hfuel : (c :: cs).length + fuel = (cs.length + fuel) + 1 := by
      simp only [List.length_cons]
      omega
    rw [hfuel, pngWalk_chunk_step A c (chunksBytes cs ++ suf) (cs.length + fuel) hc.1,
      if_neg hc.2]
    have hassoc2 : A ++ (chunkBytes c ++ (chunksBytes cs ++ suf))
        = (A ++ chunkBytes c) ++ (chunksBytes cs ++ suf) := (List.append_assoc _ _ _).symm
    have hoff : (A.length : ℤ) + (12 + (c.data.length : ℤ))
        = (((A ++ chunkBytes c).length : ℤ)) := by
      simp only [List.length_append, length_chunkBytes c hc.1.1 hc.1.2.1]
      push_cast
      ring
    rw [hassoc2, hoff, ih (A ++ chunkBytes c) suf fuel (fun p hp => h p (by simp [hp]))]
    have hofff : (((A ++ chunkBytes c).length : ℤ)) + ((chunksBytes cs).length : ℤ)
        = (A.length : ℤ) + ((chunksBytes (c :: cs)).length : ℤ) := by
      rw [chunksBytes_cons]
      simp only [List.length_append]
      push_cast
      ring
    rw [hofff]

theorem parsePngPhys_firstPhys (sig : List ℕ) (pre : List PngChunk) (c : PngChunk)
    (suf : List ℕ) (hsig : sig.length = 8)
    (hpre : ∀ p ∈ pre, wfChunk p ∧ p.ctype ≠ physTag)
    (hc : wfChunk c) (hcty : c.ctype = physTag) :
    parsePngPhys (sig ++ (chunksBytes pre ++ (chunkBytes c ++ suf))) = physChunkResult c := by
  have hge : pre.length ≤ (sig ++ (chunksBytes pre ++ (chunkBytes c ++ suf))).length := by
    have := length_le_length_chunksBytes pre
    simp only [List.length_append]
    omega
  have hfuel : (sig ++ (chunksBytes pre ++ (chunkBytes c ++ suf))).length + 1
      = pre.length +
        ((sig ++ (chunksBytes pre ++ (chunkBytes c ++ suf))).length - pre.length + 1) := by
    omega
  unfold parsePngPhys
  rw [hfuel]
  have h8 : (8 : ℤ) = ((sig.length : ℕ) : ℤ) := by rw [hsig]; rfl
  rw [h8]
  rw [pngWalk_skip pre sig (chunkBytes c ++ suf) _ hpre]
  have hoff : ((sig.length : ℕ) : ℤ) + ((chunksBytes pre).length : ℤ)
      = (((sig ++ chunksBytes pre).length : ℕ) : ℤ) := by
    simp
  have hassoc : sig ++ (chunksBytes pre ++ (chunkBytes c ++ suf))
      = (sig ++ chunksBytes pre) ++ (chunkBytes c ++ suf) := (List.append_assoc _ _ _).symm
  rw [hoff, hassoc, pngWalk_chunk_step _ c suf _ hc, if_pos hcty]

theorem jfifWalk_succ (bytes : List ℕ) (fuel off : ℕ) :
    jfifWalk bytes (fuel + 1) off =
      if off + 4 < bytes.length then
        if byteAtN bytes off = 255 then
          if byteAtN bytes (off + 1) = 224 then
            if [byteAtN bytes (off + 4), byteAtN bytes (off + 5), byteAtN bytes (off + 6),
                byteAtN bytes (off + 7), byteAtN bytes (off + 8)] = jfifIdent then
              if byteAtN bytes (off + 9) = 1 then
                some (((byteAtN bytes (off + 10) * 256 + byteAtN bytes (off + 11) : ℕ) : ℚ),
                      ((byteAtN bytes (off + 12) * 256 + byteAtN bytes (off + 13) : ℕ) : ℚ))
              else if byteAtN bytes (off + 9) = 2 then
                some (round2 (((byteAtN bytes (off + 10) * 256 + byteAtN bytes (off + 11) : ℕ) : ℚ)
                        * (254 / 100)),
                      round2 (((byteAtN bytes (off + 12) * 256 + byteAtN bytes (off + 13) : ℕ) : ℚ)
                        * (254 / 100)))
              else if byteAtN bytes (off + 1) = 218 then none
              else jfifWalk bytes fuel
                (off + 2 + (byteAtN bytes (off + 2) * 256 + byteAtN bytes (off + 3)))
            else if byteAtN bytes (off + 1) = 218 then none
            else jfifWalk bytes fuel
              (off + 2 + (byteAtN bytes (off + 2) * 256 + byteAtN bytes (off + 3)))
          else if byteAtN bytes (off + 1) = 218 then none
          else jfifWalk bytes fuel
            (off + 2 + (byteAtN bytes (off + 2) * 256 + byteAtN bytes (off + 3)))
        else none
      else none := rfl

theorem exifSegWalk_succ (bytes : List ℕ) (fuel off : ℕ) :
    exifSegWalk bytes (fuel + 1) off =
      if off + 4 < bytes.length then
        if byteAtN bytes off = 255 then
          if byteAtN bytes (off + 1) = 225 ∧
              8 ≤ byteAtN bytes (off + 2) * 256 + byteAtN bytes (off + 3) then
            if [byteAtN bytes (off + 4), byteAtN bytes (off + 5), byteAtN bytes (off + 6),
                byteAtN bytes (off + 7)] = exifIdent then
              readExifDpi bytes ((off : ℤ) + 10)
                (((byteAtN bytes (off + 2) * 256 + byteAtN bytes (off + 3) : ℕ) : ℤ) - 8)
            else if byteAtN bytes (off + 1) = 218 then none
            else exifSegWalk bytes fuel
              (off + 2 + (byteAtN bytes (off + 2) * 256 + byteAtN bytes (off + 3)))
          else if byteAtN bytes (off + 1) = 218 then none
          else exifSegWalk bytes fuel
            (off + 2 + (byteAtN bytes (off + 2) * 256 + byteAtN bytes (off + 3)))
        else none
      else none := rfl

theorem jfifWalk_short : ∀ (fuel : ℕ) (bytes : List ℕ) (off : ℕ),
    bytes.length < 8 → 2 ≤ off → jfifWalk bytes fuel off = none := by
  intro fuel
  induction fuel with
  | zero => intro bytes off h h2; rfl
  | succ n ih =>
    intro bytes off h h2
    rw [jfifWalk_succ]
    by_cases hg : off + 4 < bytes.length
    · have hoff : off = 2 := by omega
      subst hoff
      rw [if_pos hg]
      have h7 : byteAtN bytes 7 = 0 := byteAtN_short bytes 7 (by omega)
      split_ifs with hff hmk hid hu1 hu2 hda hda' hda'' <;>
        first
        | rfl
        | (exfalso
           simp only [jfifIdent, List.cons.injEq] at hid
           norm_num at hid
           omega)
        | (apply ih bytes _ h
           omega)
    · rw [if_neg hg]

theorem exifSegWalk_short : ∀ (fuel : ℕ) (bytes : List ℕ) (off : ℕ),
    bytes.length < 8 → 2 ≤ off → exifSegWalk bytes fuel off = none := by
  intro fuel
  induction fuel with
  | zero => intro bytes off h h2; rfl
  | succ n ih =>
    intro bytes off h h2
    rw [exifSegWalk_succ]
    by_cases hg : off + 4 < bytes.length
    · have hoff : off = 2 := by omega
      subst hoff
      rw [if_pos hg]
      have h7 : byteAtN bytes 7 = 0 := byteAtN_short bytes 7 (by omega)
      split_ifs with hff hmk hid hda hda' <;>
        first
        | rfl
        | (exfalso
           simp only [exifIdent, List.cons.injEq] at hid
           norm_num at hid
           omega)
        | (apply ih bytes _ h
           omega)
    · rw [if_neg hg]

theorem parseJpegJfifDpi_short (bytes : List ℕ) (h : bytes.length < 8) :
    parseJpegJfifDpi bytes = none :=
  jfifWalk_short (bytes.length + 1) bytes 2 h le_rfl

theorem parseJpegExifDpi_short (bytes : List ℕ) (h : bytes.length < 8) :
    parseJpegExifDpi bytes = none :=
  exifSegWalk_short (bytes.length + 1) bytes 2 h le_rfl

theorem jround_intCast (n : ℤ) : jround ((n : ℚ)) = n := by
  unfold jround
  rw [Int.floor_int_add]
  have : ⌊(1 / 2 : ℚ)⌋ = 0 := by
    rw [Int.floor_eq_zero_iff]
    constructor <;> norm_num
  rw [this, add_zero]

theorem rationalToNumber_one (n : ℤ) : rationalToNumber (n, 1) = (n : ℚ) := by
  simp [rationalToNumber]

theorem rationalToNumber_thousand (n : ℤ) : rationalToNumber (n, 1000) = (n : ℚ) / 1000 := by
  norm_num [rationalToNumber]

theorem dms_core_close (a : ℚ) :
    |((⌊a⌋ : ℚ) + (⌊(a - ⌊a⌋) * 60⌋ : ℚ) / 60 +
      ((jround (((a - ⌊a⌋) * 60 - ⌊(a - ⌊a⌋) * 60⌋) * 60 * 1000) : ℚ) / 1000) / 3600) - a|
      ≤ 1 / 7200000 := by
  set d : ℤ := ⌊a⌋ with hd
  set mf : ℚ := (a - d) * 60 with hmf
  set m : ℤ := ⌊mf⌋ with hm
  set sf : ℚ := (mf - m) * 60 with hsf
  have hident : ((d : ℚ) + (m : ℚ) / 60 + sf / 3600) = a := by
    rw [hsf, hmf]
    ring
  have hj := jround_abs_le (sf * 1000)
  have e : ((d : ℚ) + (m : ℚ) / 60 + ((jround (sf * 1000) : ℚ) / 1000) / 3600) - a
      = ((jround (sf * 1000) : ℚ) - sf * 1000) / 3600000 := by
    rw [← hident]
    ring
  rw [e, abs_div]
  have h36 : |(3600000 : ℚ)| = 3600000 := by norm_num
  rw [h36]
  have e2 : (1 : ℚ) / 7200000 = (1 / 2) / 3600000 := by norm_num
  rw [e2]
  exact (div_le_div_iff_of_pos_right (by norm_num)).mpr hj

theorem round6_core_close (a : ℚ) :
    |round6 ((⌊a⌋ : ℚ) + (⌊(a - ⌊a⌋) * 60⌋ : ℚ) / 60 +
      ((jround (((a - ⌊a⌋) * 60 - ⌊(a - ⌊a⌋) * 60⌋) * 60 * 1000) : ℚ) / 1000) / 3600) - a|
      ≤ 1 / 1000000 := by
  have h1 := dms_core_close a
  have h2 := round6_abs_le ((⌊a⌋ : ℚ) + (⌊(a - ⌊a⌋) * 60⌋ : ℚ) / 60 +
      ((jround (((a - ⌊a⌋) * 60 - ⌊(a - ⌊a⌋) * 60⌋) * 60 * 1000) : ℚ) / 1000) / 3600)
  have h3 := abs_sub_le (round6 ((⌊a⌋ : ℚ) + (⌊(a - ⌊a⌋) * 60⌋ : ℚ) / 60 +
      ((jround (((a - ⌊a⌋) * 60 - ⌊(a - ⌊a⌋) * 60⌋) * 60 * 1000) : ℚ) / 1000) / 3600))
    ((⌊a⌋ : ℚ) + (⌊(a - ⌊a⌋) * 60⌋ : ℚ) / 60 +
      ((jround (((a - ⌊a⌋) * 60 - ⌊(a - ⌊a⌋) * 60⌋) * 60 * 1000) : ℚ) / 1000) / 3600) a
  linarith

theorem jround_collapse (x : ℚ) : jround ((jround x : ℚ) / 1000 * 1000) = jround x := by
  have e : ((jround x : ℚ) / 1000) * 1000 = ((jround x : ℚ)) := by ring
  rw [e, jround_intCast]

theorem round6_core_close_neg (a : ℚ) :
    |round6 (((⌊a⌋ : ℚ) + (⌊(a - ⌊a⌋) * 60⌋ : ℚ) / 60 +
      ((jround (((a - ⌊a⌋) * 60 - ⌊(a - ⌊a⌋) * 60⌋) * 60 * 1000) : ℚ) / 1000) / 3600) * -1)
      - (-a)| ≤ 1 / 1000000 := by
  have h1 := dms_core_close a
  have h2 := round6_abs_le (((⌊a⌋ : ℚ) + (⌊(a - ⌊a⌋) * 60⌋ : ℚ) / 60 +
      ((jround (((a - ⌊a⌋) * 60 - ⌊(a - ⌊a⌋) * 60⌋) * 60 * 1000) : ℚ) / 1000) / 3600) * -1)
  have h3 := abs_sub_le (round6 (((⌊a⌋ : ℚ) + (⌊(a - ⌊a⌋) * 60⌋ : ℚ) / 60 +
      ((jround (((a - ⌊a⌋) * 60 - ⌊(a - ⌊a⌋) * 60⌋) * 60 * 1000) : ℚ) / 1000) / 3600) * -1))
    (((⌊a⌋ : ℚ) + (⌊(a - ⌊a⌋) * 60⌋ : ℚ) / 60 +
      ((jround (((a - ⌊a⌋) * 60 - ⌊(a - ⌊a⌋) * 60⌋) * 60 * 1000) : ℚ) / 1000) / 3600) * -1) (-a)
  have h4 : |(((⌊a⌋ : ℚ) + (⌊(a - ⌊a⌋) * 60⌋ : ℚ) / 60 +
      ((jround (((a - ⌊a⌋) * 60 - ⌊(a - ⌊a⌋) * 60⌋) * 60 * 1000) : ℚ) / 1000) / 3600) * -1) - (-a)|
      = |((⌊a⌋ : ℚ) + (⌊(a - ⌊a⌋) * 60⌋ : ℚ) / 60 +
      ((jround (((a - ⌊a⌋) * 60 - ⌊(a - ⌊a⌋) * 60⌋) * 60 * 1000) : ℚ) / 1000) / 3600) - a| := by
    have e : (((⌊a⌋ : ℚ) + (⌊(a - ⌊a⌋) * 60⌋ : ℚ) / 60 +
        ((jround (((a - ⌊a⌋) * 60 - ⌊(a - ⌊a⌋) * 60⌋) * 60 * 1000) : ℚ) / 1000) / 3600) * -1) - (-a)
        = -(((⌊a⌋ : ℚ) + (⌊(a - ⌊a⌋) * 60⌋ : ℚ) / 60 +
        ((jround (((a - ⌊a⌋) * 60 - ⌊(a - ⌊a⌋) * 60⌋) * 60 * 1000) : ℚ) / 1000) / 3600) - a) := by
      ring
    rw [e, abs_neg]
  linarith

theorem gpsRoundTripLat_close (deg : ℚ) : |gpsRoundTripLat deg - deg| ≤ 1 / 1000000 := by
  have hfloor : (0 : ℚ) ≤ (⌊|deg|⌋ : ℚ) :=
    Int.cast_nonneg.mpr (Int.floor_nonneg.mpr (abs_nonneg deg))
  by_cases hneg : deg < 0
  · unfold gpsRoundTripLat degToDmsRational
    simp only [if_pos hneg, reduceIte, rationalToNumber_one,
      rationalToNumber_thousand, jround_collapse]
    unfold dmsToDecimal
    rw [if_pos (show (-1 : ℤ) < 0 by norm_num), abs_of_nonneg hfloor]
    set a : ℚ := |deg| with ha
    rw [show deg = -a by rw [ha, abs_of_neg hneg]; ring]
    exact round6_core_close_neg a
  · unfold gpsRoundTripLat degToDmsRational
    simp only [if_neg hneg, reduceIte, rationalToNumber_one,
      rationalToNumber_thousand, jround_collapse]
    rw [if_neg (show ¬((78 : ℕ) = 83) by norm_num)]
    unfold dmsToDecimal
    rw [if_neg (show ¬((1 : ℤ) < 0) by norm_num), mul_one, abs_of_nonneg hfloor]
    set a : ℚ := |deg| with ha
    rw [show deg = a from (ha ▸ (abs_of_nonneg (not_lt.mp hneg)).symm)]
    exact round6_core_close a

theorem gpsRoundTripLon_close (deg : ℚ) : |gpsRoundTripLon deg - deg| ≤ 1 / 1000000 := by
  have hfloor : (0 : ℚ) ≤ (⌊|deg|⌋ : ℚ) :=
    Int.cast_nonneg.mpr (Int.floor_nonneg.mpr (abs_nonneg deg))
  by_cases hneg : deg < 0
  · unfold gpsRoundTripLon degToDmsRationalLon
    simp only [if_pos hneg, reduceIte, rationalToNumber_one,
      rationalToNumber_thousand, jround_collapse]
    unfold dmsToDecimal
    rw [if_pos (show (-1 : ℤ) < 0 by norm_num), abs_of_nonneg hfloor]
    set a : ℚ := |deg| with ha
    rw [show deg = -a by rw [ha, abs_of_neg hneg]; ring]
    exact round6_core_close_neg a
  · unfold gpsRoundTripLon degToDmsRationalLon
    simp only [if_neg hneg, reduceIte, rationalToNumber_one,
      rationalToNumber_thousand, jround_collapse]
    rw [if_neg (show ¬((69 : ℕ) = 87) by norm_num)]
    unfold dmsToDecimal
    rw [if_neg (show ¬((1 : ℤ) < 0) by norm_num), mul_one, abs_of_nonneg hfloor]
    set a : ℚ := |deg| with ha
    rw [show deg = a from (ha ▸ (abs_of_nonneg (not_lt.mp hneg)).symm)]
    exact round6_core_close a

theorem ifdLoop_succ {σ : Type} (step : ℤ → σ → σ) (ts tl base : ℤ) (i r : ℕ) (st : σ) :
    ifdLoop step ts tl base i (r + 1) st =
      if base + 2 + (i : ℤ) * 12 + 12 ≤ ts + tl then
        ifdLoop step ts tl base (i + 1) r (step (base + 2 + (i : ℤ) * 12) st)
      else st := rfl

theorem exifDpiEntry_unit_set (bytes : List ℕ) (ts tl : ℤ) (le : Bool) (entry : ℤ)
    (st : DpiState) (htag : readUint16 bytes entry le = 296) :
    exifDpiEntry bytes ts tl le entry st = { st with unit := readUint32 bytes (entry + 8) le } := by
  simp only [exifDpiEntry]
  rw [if_pos htag, if_neg]
  rw [htag]
  norm_num

theorem exifDpiEntry_unit_preserved (bytes : List ℕ) (ts tl : ℤ) (le : Bool) (entry : ℤ)
    (st : DpiState) (htag : readUint16 bytes entry le ≠ 296) :
    (exifDpiEntry bytes ts tl le entry st).unit = st.unit := by
  simp only [exifDpiEntry]
  rw [if_neg htag]
  split_ifs <;> rfl

theorem exifDpiLoop_unit_default (bytes : List ℕ) (ts tl : ℤ) (le : Bool) (base : ℤ) :
    ∀ (r i : ℕ) (st : DpiState),
      (∀ j : ℕ, i ≤ j → j < i + r → readUint16 bytes (base + 2 + (j : ℤ) * 12) le ≠ 296) →
      (ifdLoop (exifDpiEntry bytes ts tl le) ts tl base i r st).unit = st.unit := by
  intro r
  induction r with
  | zero => intro i st h; rfl
  | succ n ih =>
    intro i st h
    rw [ifdLoop_succ]
    by_cases hb : base + 2 + (i : ℤ) * 12 + 12 ≤ ts + tl
    · rw [if_pos hb, ih (i + 1) _ (fun j hj hj2 => h j (by omega) (by omega)),
        exifDpiEntry_unit_preserved bytes ts tl le _ st (h i le_rfl (by omega))]
    · rw [if_neg hb]

/-- C1: for every JPEG byte buffer, `detectDpi` tries the JFIF (APP0)
density first and returns it with `dpiSource` recording the JFIF source
when found; the EXIF (APP1) density probe is consulted only when no JFIF
density result exists, so whenever a JFIF density is present the returned
dpiX/dpiY come from JFIF and never from EXIF. The closed-form case split
makes the priority explicit, and the spec's 72-dpi JFIF example is checked
concretely. -/
theorem c1_jfif_priority_over_exif :
    (∀ bytes : List ℕ, detectDpi bytes Format.JPEG =
      match parseJpegJfifDpi bytes with
      | some p => ⟨some p.1, some p.2, some DpiSource.jpegJfif⟩
      | none =>
        match parseJpegExifDpi bytes with
        | some q => ⟨some q.1, some q.2, some DpiSource.jpegExif⟩
        | none => ⟨none, none, none⟩)
    ∧ parseJpegJfifDpi jfif72 = some (72, 72)
    ∧ detectDpi jfif72 Format.JPEG = ⟨some 72, some 72, some DpiSource.jpegJfif⟩ :=
  ⟨fun _ => rfl, by decide, by decide⟩

/-- C9: for every byte buffer and every outcome of the external `exifr`
probe — including a thrown exception, modelled as `.error ()` — the
metadata-extraction entry point produces a full record: format, DPI and
width/height fields are always those of the respective probes, and the
thrown-exception case yields exactly the same record as the benign
null-result case (the `catch` downgrades the probe to the JPEG fallback
parser / empty extras instead of propagating). Totality of
`extractMetadata` in the embedding is the no-raise guarantee. -/
theorem c9_probe_exceptions_caught :
    ∀ (bytes : List ℕ) (exifrRes : Except Unit (Option ExifrData)) (w h : Option ℕ),
      (extractMetadata bytes exifrRes w h).format = detectFormat bytes
      ∧ (extractMetadata bytes exifrRes w h).dpiX = (detectDpi bytes (detectFormat bytes)).dpiX
      ∧ (extractMetadata bytes exifrRes w h).dpiY = (detectDpi bytes (detectFormat bytes)).dpiY
      ∧ (extractMetadata bytes exifrRes w h).dpiSource
          = (detectDpi bytes (detectFormat bytes)).dpiSource
      ∧ (extractMetadata bytes exifrRes w h).width = w
      ∧ (extractMetadata bytes exifrRes w h).height = h
      ∧ extractMetadata bytes (.error ()) w h = extractMetadata bytes (.ok none) w h :=
  fun _ _ _ _ => ⟨rfl, rfl, rfl, rfl, rfl, rfl, rfl⟩

/-- C2 (spec-modelled transport): the degrees→DMS-RATIONAL encoding of the
JPEG export route composed with the repository's GPS decode arithmetic
returns every latitude/longitude within ±0.000001 of the original; for
latitude 59.3293 / longitude 18.0686 the reference letters are `N` (78)
and `E` (69), the round trip is exact, and the supplied make/model strings
are returned unchanged. -/
theorem c2_gps_roundtrip :
    (∀ lat lon : ℚ, |gpsRoundTripLat lat - lat| ≤ 1 / 1000000 ∧
        |gpsRoundTripLon lon - lon| ≤ 1 / 1000000)
    ∧ (degToDmsRational (593293 / 10000)).ref = 78
    ∧ (degToDmsRationalLon (180686 / 10000)).ref = 69
    ∧ gpsRoundTripLat (593293 / 10000) = 593293 / 10000
    ∧ gpsRoundTripLon (180686 / 10000) = 180686 / 10000
    ∧ (∀ (make model : List ℕ) (lat lon : ℚ),
        exifFieldsRoundTrip make model lat lon
          = (make, model, gpsRoundTripLat lat, gpsRoundTripLon lon)) :=
  ⟨fun lat lon => ⟨gpsRoundTripLat_close lat, gpsRoundTripLon_close lon⟩,
    by decide, by decide, by decide, by decide, fun _ _ _ _ => rfl⟩

/-- C8 counterexample: the 3-byte buffer `FF D8 FF` has fewer than 8 bytes
yet is classified as JPEG, not Unknown — the JPEG (3-byte) signature check
does not require 8 bytes. -/
theorem c8_counterexample :
    ([255, 216, 255] : List ℕ).length < 8 ∧
    detectFormat [255, 216, 255] ≠ Format.Unknown ∧
    detectFormat [255, 216, 255] = Format.JPEG := by decide

/-- C8 (amended): for every input buffer of fewer than 8 bytes the DPI
probe returns dpiX/dpiY/dpiSource all absent and extraction raises nothing
(the embedded extraction is total); the format is Unknown unless the
buffer matches the 3-byte JPEG or 6-byte GIF signature, which fit in fewer
than 8 bytes. -/
theorem c8_short_buffer_amended :
    ∀ bytes : List ℕ, bytes.length < 8 →
      (detectFormat bytes = Format.Unknown ∨ detectFormat bytes = Format.JPEG ∨
        detectFormat bytes = Format.GIF)
      ∧ detectDpi bytes (detectFormat bytes) = ⟨none, none, none⟩
      ∧ ∀ (e : Except Unit (Option ExifrData)) (w h : Option ℕ),
          (extractMetadata bytes e w h).dpiX = none ∧
          (extractMetadata bytes e w h).dpiY = none ∧
          (extractMetadata bytes e w h).dpiSource = none := by
  intro bytes hlen
  have hfmt : detectFormat bytes = Format.Unknown ∨ detectFormat bytes = Format.JPEG ∨
      detectFormat bytes = Format.GIF := by
    unfold detectFormat
    split_ifs with h1 h2 h3 h4
    · omega
    · exact Or.inr (Or.inl rfl)
    · omega
    · exact Or.inr (Or.inr rfl)
    · exact Or.inl rfl
  have hdpi : detectDpi bytes (detectFormat bytes) = ⟨none, none, none⟩ := by
    rcases hfmt with hf | hf | hf <;> rw [hf]
    · rfl
    · simp [detectDpi, parseJpegJfifDpi_short bytes hlen, parseJpegExifDpi_short bytes hlen]
    · rfl
  refine ⟨hfmt, hdpi, fun e w h => ?_⟩
  have e1 : (extractMetadata bytes e w h).dpiX = (detectDpi bytes (detectFormat bytes)).dpiX :=
    rfl
  have e2 : (extractMetadata bytes e w h).dpiY = (detectDpi bytes (detectFormat bytes)).dpiY :=
    rfl
  have e3 : (extractMetadata bytes e w h).dpiSource
      = (detectDpi bytes (detectFormat bytes)).dpiSource := rfl
  rw [e1, e2, e3, hdpi]
  exact ⟨rfl, rfl, rfl⟩

/-- C8 witness: the amended theorem applied to the 3-byte JPEG buffer. -/
theorem c8_short_buffer_witness :
    ([255, 216, 255] : List ℕ).length < 8 ∧
      detectDpi [255, 216, 255] (detectFormat [255, 216, 255]) = ⟨none, none, none⟩ :=
  ⟨by decide, (c8_short_buffer_amended [255, 216, 255] (by decide)).2.1⟩

/-- C3 counterexample: a TIFF region whose byte-order marker is `AB` —
neither `II` nor `MM` — is not rejected: it is treated as big-endian, its
magic number 42 passes, and its IFD is walked all the way to a DPI result. -/
theorem c3_counterexample :
    ¬(byteAt tiffAB 0 = 73 ∧ byteAt tiffAB 1 = 73) ∧
    ¬(byteAt tiffAB 0 = 77 ∧ byteAt tiffAB 1 = 77) ∧
    readExifDpi tiffAB 0 54 = some (300, 300) ∧
    readExifDpi tiffAB 0 54 ≠ none := by decide

/-- C3 (amended): the TIFF/IFD decoders do not validate the byte-order
marker — any marker other than `II` is read as big-endian — but they do
fail (yield no result) whenever the 2-byte magic number, read in the byte
order selected by the marker, is not 42; only regions passing the magic
check are walked. -/
theorem c3_magic_check_amended :
    ∀ (bytes : List ℕ) (ts tl : ℤ),
      readUint16 bytes (ts + 2) (isII bytes ts) ≠ 42 →
      readExifDpi bytes ts tl = none ∧ readExifGeneral bytes ts tl = none := by
  intro bytes ts tl h
  constructor
  · by_cases h1 : tl < 8
    · simp only [readExifDpi]
      rw [if_pos h1]
    · simp only [readExifDpi]
      rw [if_neg h1, if_pos h]
  · by_cases h1 : tl < 8
    · simp only [readExifGeneral]
      rw [if_pos h1]
    · simp only [readExifGeneral]
      rw [if_neg h1, if_pos h]

/-- C3 witness: an `MM` region with magic number 43 is rejected by both
decoders. -/
theorem c3_witness :
    readUint16 tiffBadMagic (0 + 2) (isII tiffBadMagic 0) ≠ 42 ∧
    readExifDpi tiffBadMagic 0 8 = none ∧ readExifGeneral tiffBadMagic 0 8 = none :=
  ⟨by decide, (c3_magic_check_amended tiffBadMagic 0 8 (by decide)).1,
    (c3_magic_check_amended tiffBadMagic 0 8 (by decide)).2⟩

/-- C4 counterexample: a GPS sub-directory whose latitude-degrees RATIONAL
has numerator `0x80000001` (2147483649 as an unsigned 32-bit value)
decodes to 2147483647, which is neither the claim's value for the unsigned
reading (round6 of 2147483649 + 0/60 + 0/3600) nor the signed reading
without the absolute value (round6 of -2147483647 + 0/60 + 0/3600): the
32-bit read is signed and `dmsToDecimal` takes the absolute value of the
degrees term. -/
theorem c4_counterexample :
    (readExifGeneral tiffGps 0 120).bind GeneralObj.gpsLatitude = some 2147483647 ∧
    (2147483647 : ℚ) ≠ round6 ((2147483649 : ℚ) + 0 / 60 + 0 / 3600) ∧
    (2147483647 : ℚ) ≠ round6 ((-2147483647 : ℚ) + 0 / 60 + 0 / 3600) ∧
    readUint32 tiffGps 72 true = -2147483647 := by decide

/-- C4 (amended): for every GPS sub-directory providing latitude and
longitude as (at least) three decoded rational pairs each, the decoded
coordinate is `round6` of `|degrees| + minutes/60 + seconds/3600` — with
each value the signed-32-bit read `num/den` and a zero denominator
contributing 0 — negated exactly when the latitude reference is `S` (83)
or the longitude reference is `W` (87). -/
theorem c4_gps_decode_amended :
    ∀ (la lo : List (ℤ × ℤ)) (latRef lonRef : Option (List ℕ)),
      3 ≤ la.length → 3 ≤ lo.length →
      ((gpsRaw latRef lonRef (some la) (some lo)).1.map round6
          = some (round6 ((|rationalToNumber (la.getD 0 (0, 0))| +
              rationalToNumber (la.getD 1 (0, 0)) / 60 +
              rationalToNumber (la.getD 2 (0, 0)) / 3600) *
            (if latRef = some [83] then -1 else 1)))
      ∧ (gpsRaw latRef lonRef (some la) (some lo)).2.map round6
          = some (round6 ((|rationalToNumber (lo.getD 0 (0, 0))| +
              rationalToNumber (lo.getD 1 (0, 0)) / 60 +
              rationalToNumber (lo.getD 2 (0, 0)) / 3600) *
            (if lonRef = some [87] then -1 else 1)))
      ∧ (∀ n : ℤ, rationalToNumber (n, 0) = 0)) := by
  intro la lo latRef lonRef h3 h3'
  refine ⟨?_, ?_, ?_⟩
  · simp only [gpsRaw, dmsToDecimal]
    rw [if_pos ⟨h3, h3'⟩]
    by_cases hr : latRef = some [83]
    · simp [hr]
    · simp [hr]
  · simp only [gpsRaw, dmsToDecimal]
    rw [if_pos ⟨h3, h3'⟩]
    by_cases hr : lonRef = some [87]
    · simp [hr]
    · simp [hr]
  · intro n
    simp [rationalToNumber]

/-- C4 witness: the amended decode at latitude 59° 19' 45.480" S. -/
theorem c4_witness :
    (gpsRaw (some [83]) (some [69])
        (some [((59 : ℤ), (1 : ℤ)), (19, 1), (45480, 1000)])
        (some [((18 : ℤ), (1 : ℤ)), (4, 1), (6960, 1000)])).1.map round6
      = some (round6 ((593293 : ℚ) / 10000 * -1)) := by
  rw [(c4_gps_decode_amended [(59, 1), (19, 1), (45480, 1000)] [(18, 1), (4, 1), (6960, 1000)]
    (some [83]) (some [69]) (by decide) (by decide)).1]
  norm_num [rationalToNumber]

/-- C5: the EXIF DPI dispatch passes valid (present and nonzero) X/Y
resolutions through `round2` unchanged when the unit is 2, multiplies them
by 2.54 when the unit is 3, and returns no DPI for any other unit; and the
entry loop leaves the unit at its initial default 2 whenever no entry
carries the ResolutionUnit tag 0x0128, so a region without the tag is
treated as inches. -/
theorem c5_resolution_unit_dispatch :
    (∀ (x y : ℚ), x ≠ 0 → y ≠ 0 → ∀ u : ℤ,
        dpiOfState ⟨some x, some y, u⟩ =
          if u = 2 then some (round2 x, round2 y)
          else if u = 3 then some (round2 (x * (254 / 100)), round2 (y * (254 / 100)))
          else none)
    ∧ (∀ (bytes : List ℕ) (ts tl base : ℤ) (le : Bool) (n : ℕ),
        (∀ j : ℕ, j < n → readUint16 bytes (base + 2 + (j : ℤ) * 12) le ≠ 296) →
        (ifdLoop (exifDpiEntry bytes ts tl le) ts tl base 0 n ⟨none, none, 2⟩).unit = 2) := by
  constructor
  · intro x y hx hy u
    unfold dpiOfState
    rw [if_pos]
    · rfl
    · exact ⟨hx, hy⟩
  · intro bytes ts tl base le n h
    exact exifDpiLoop_unit_default bytes ts tl le base n 0 ⟨none, none, 2⟩
      (fun j hj hj2 => h j (by omega))

/-- C5 witness: the dispatch at 300 dpi with units 2, 3 and 7, and the
default unit over the two-entry region `tiffAB` (whose tags are 0x011A and
0x011B only). -/
theorem c5_witness :
    dpiOfState ⟨some 300, some 300, 7⟩ = none ∧
    dpiOfState ⟨some 300, some 300, 2⟩ = some (round2 300, round2 300) ∧
    (ifdLoop (exifDpiEntry tiffAB 0 54 false) 0 54 8 0 2 ⟨none, none, 2⟩).unit = 2 := by
  refine ⟨?_, ?_, ?_⟩
  · have h := c5_resolution_unit_dispatch.1 300 300 (by norm_num) (by norm_num) 7
    rw [h]
    norm_num
  · have h := c5_resolution_unit_dispatch.1 300 300 (by norm_num) (by norm_num) 2
    rw [h]
    norm_num
  · exact c5_resolution_unit_dispatch.2 tiffAB 0 54 8 false 2
      (fun j hj => by interval_cases j <;> decide)

/-- C10 counterexample: a big-endian ResolutionUnit entry whose value field
holds the inline SHORT 32768 (`80 00 00 00`) assigns the unit -2147483648,
not 32768 × 65536 = 2147483648 — the 32-bit read is signed, so the claimed
`unit = v × 65536` fails once the top bit of `v` is set. -/
theorem c10_counterexample :
    (exifDpiEntry ruEntryBE 0 1000 false 0 ⟨none, none, 2⟩).unit = -2147483648 ∧
    (-2147483648 : ℤ) ≠ (32768 : ℤ) * 65536 ∧
    readUint16 ruEntryBE 0 false = 296 ∧
    byteAtN ruEntryBE 8 = 32768 / 256 ∧ byteAtN ruEntryBE 9 = 32768 % 256 := by decide

/-- C10 (amended): a ResolutionUnit (0x0128) entry stores the raw signed
32-bit value-or-offset field into the unit with no type or count check; in
a big-endian region an inline SHORT `v` occupies the two leading bytes of
that field, so the assigned unit is `toInt32 (v * 65536)`, which equals
`v * 65536` for `v < 32768` (and `v * 65536 - 2^32` otherwise); in
particular a big-endian region with inline ResolutionUnit 2 and valid
X/YResolution rationals yields no DPI, because the computed unit 131072 is
neither 2 nor 3, while the same region with the full 32-bit field equal to
2 yields the 300-dpi pair. -/
theorem c10_unit_from_raw_field :
    (∀ (bytes : List ℕ) (ts tl : ℤ) (le : Bool) (entry : ℤ) (st : DpiState),
        readUint16 bytes entry le = 296 →
        exifDpiEntry bytes ts tl le entry st
          = { st with unit := readUint32 bytes (entry + 8) le })
    ∧ (∀ (v : ℕ) (suf : List ℕ), v < 65536 →
        readUint32 ([v / 256, v % 256, 0, 0] ++ suf) 0 false = toInt32 (v * 65536))
    ∧ (∀ v : ℕ, v < 32768 → toInt32 (v * 65536) = (v : ℤ) * 65536)
    ∧ readExifDpi tiffMM2 0 62 = none
    ∧ readExifDpi tiffMM2full 0 62 = some (300, 300) := by
  refine ⟨exifDpiEntry_unit_set, ?_, ?_, by decide, by decide⟩
  · intro v suf hv
    have b0 : byteAt ([v / 256, v % 256, 0, 0] ++ suf) 0 = v / 256 := by
      simp [byteAt, byteAtN]
    have b1 : byteAt ([v / 256, v % 256, 0, 0] ++ suf) (0 + 1) = v % 256 := by
      simp [byteAt, byteAtN]
    have b2 : byteAt ([v / 256, v % 256, 0, 0] ++ suf) (0 + 2) = 0 := by
      simp [byteAt, byteAtN]
    have b3 : byteAt ([v / 256, v % 256, 0, 0] ++ suf) (0 + 3) = 0 := by
      simp [byteAt, byteAtN]
    unfold readUint32
    simp only [Bool.false_eq_true, if_false, b0, b1, b2, b3]
    have e : v / 256 * 16777216 + v % 256 * 65536 + 0 * 256 + 0 = v * 65536 := by omega
    rw [e]
  · intro v hv
    exact toInt32_small (v * 65536) (by omega)

/-- C6 counterexample: a PNG whose first chunk is a `pHYs` with
3937 pixels per meter on both axes and unit 1 yields dpiX = dpiY = 100,
not 99.99 — 3937 × 0.0254 = 99.9998, and `round2` rounds it to 100.00. -/
theorem c6_counterexample :
    parsePngPhys pngPhys3937 = some (100, 100) ∧
    parsePngPhys pngPhys3937 ≠ some (9999 / 100, 9999 / 100) ∧
    round2 ((3937 : ℚ) * (254 / 10000)) = 100 ∧ (100 : ℚ) ≠ 9999 / 100 := by
  refine ⟨?_, ?_, ?_, by norm_num⟩
  · decide
  · rw [show ((9999 : ℚ) / 100) = round2 ((3937 : ℚ) * (254 / 10000)) - 1 / 100 by
      unfold round2 jround; norm_num]
    decide
  · unfold round2 jround
    norm_num

/-- C6 (amended): for every buffer made of an 8-byte signature, any
well-formed non-`pHYs` chunks, the pHYs chunk with both densities 3937 and
unit 1, and arbitrary trailing bytes, the extracted dpiX and dpiY both
equal 100 (3937 × 0.0254 = 99.9998 rounds to 100.00 at 2 decimals, not
99.99), with dpiSource the PNG pHYs source. -/
theorem c6_png_phys_3937_amended :
    ∀ (sig suf : List ℕ) (pre : List PngChunk),
      sig.length = 8 → (∀ p ∈ pre, wfChunk p ∧ p.ctype ≠ physTag) →
      parsePngPhys (sig ++ (chunksBytes pre ++ (chunkBytes phys3937 ++ suf))) = some (100, 100)
      ∧ detectDpi (pngSig ++ (chunksBytes pre ++ (chunkBytes phys3937 ++ suf))) Format.PNG
          = ⟨some 100, some 100, some DpiSource.pngPhys⟩ := by
  intro sig suf pre hs hp
  have hwf : wfChunk phys3937 := by decide
  have hres : physChunkResult phys3937 = some (100, 100) := by decide
  have h1 := parsePngPhys_firstPhys sig pre phys3937 suf hs hp hwf rfl
  have h2 := parsePngPhys_firstPhys pngSig pre phys3937 suf (by decide) hp hwf rfl
  rw [hres] at h1 h2
  refine ⟨h1, ?_⟩
  simp [detectDpi, h2]

/-- C6 witness: the amended theorem at the buffer whose chunks are exactly
one IHDR-less pHYs chunk followed by trailing bytes. -/
theorem c6_witness :
    parsePngPhys (pngSig ++ (chunksBytes [] ++ (chunkBytes phys3937 ++ chunkBytes physUnit0)))
      = some (100, 100) :=
  (c6_png_phys_3937_amended pngSig (chunkBytes physUnit0) [] (by decide)
    (by intro p hp; simp at hp)).1

/-- C7: the PNG chunk walker stops at the first `pHYs` chunk it
encounters: on every buffer made of an 8-byte signature, well-formed
non-`pHYs` chunks, a first `pHYs` chunk and arbitrary trailing bytes
(which may contain further `pHYs` chunks), the result is determined by
that first chunk alone — the converted DPI pair when its data length is
≥ 9 and its unit byte is 1, and no DPI otherwise — and in particular a
first `pHYs` whose unit is not 1 (e.g. 0) leaves dpiSource absent. -/
theorem c7_first_phys_wins :
    ∀ (sig suf : List ℕ) (pre : List PngChunk) (c : PngChunk),
      sig.length = 8 → (∀ p ∈ pre, wfChunk p ∧ p.ctype ≠ physTag) →
      wfChunk c → c.ctype = physTag →
      parsePngPhys (sig ++ (chunksBytes pre ++ (chunkBytes c ++ suf))) = physChunkResult c
      ∧ (byteAt c.data 8 ≠ 1 →
          detectDpi (sig ++ (chunksBytes pre ++ (chunkBytes c ++ suf))) Format.PNG
            = ⟨none, none, none⟩) := by
  intro sig suf pre c hs hp hc hcty
  have h1 := parsePngPhys_firstPhys sig pre c suf hs hp hc hcty
  refine ⟨h1, fun hunit => ?_⟩
  have h2 : physChunkResult c = none := by
    unfold physChunkResult
    by_cases h9 : (9 : ℤ) ≤ (c.data.length : ℤ)
    · rw [if_pos h9, if_neg hunit]
    · rw [if_neg h9]
  rw [h2] at h1
  simp [detectDpi, h1]

/-- C7 witness: a buffer whose first `pHYs` has unit 0 yields no DPI and an
absent dpiSource even though a later valid `pHYs` (3937 per meter, unit 1)
follows it. -/
theorem c7_first_phys_witness :
    parsePngPhys (pngSig ++ (chunksBytes [] ++ (chunkBytes physUnit0 ++ chunkBytes phys3937)))
      = physChunkResult physUnit0 ∧
    detectDpi (pngSig ++ (chunksBytes [] ++ (chunkBytes physUnit0 ++ chunkBytes phys3937)))
      Format.PNG = ⟨none, none, none⟩ ∧
    physChunkResult physUnit0 = none := by
  have h := c7_first_phys_wins pngSig (chunkBytes phys3937) [] physUnit0 (by decide)
    (by intro p hp; simp at hp) (by decide) rfl
  exact ⟨h.1, h.2 (by decide), by decide⟩

/-- C10 witness: the amended theorem at the concrete big-endian
ResolutionUnit entry and at the inline SHORT 2. -/
theorem c10_witness :
    exifDpiEntry ruEntryBE 0 1000 false 0 ⟨none, none, 2⟩
      = ⟨none, none, readUint32 ruEntryBE (0 + 8) false⟩ ∧
    readUint32 ([2 / 256, 2 % 256, 0, 0] ++ ([] : List ℕ)) 0 false = toInt32 (2 * 65536) ∧
    toInt32 (2 * 65536) = (2 : ℤ) * 65536 :=
  ⟨c10_unit_from_raw_field.1 ruEntryBE 0 1000 false 0 ⟨none, none, 2⟩ (by decide),
    c10_unit_from_raw_field.2.1 2 [] (by norm_num),
    c10_unit_from_raw_field.2.2.1 2 (by norm_num)⟩
